import Mathlib

/-!
Verification of the incremental reconciliation pipeline of `gva.py`
(Gun-Violence-Data): a shallow embedding of `read_ids`,
`find_new_incidents`, `geocode_incidents`, `update_master_file` and
`run_automation`, together with theorems about the reconcile/merge
behaviour the design document describes.

Records are modelled at the level `csv.DictReader` / `csv.DictWriter`
see them: a record is an insertion-ordered dictionary from field names
to string values, and a CSV file is a header (the `fieldnames` list)
plus a list of such rows.  A file that cannot be opened is `none`.
External effects are parameters: the geocoding lookup is a function
from the address string to an outcome, and its availability (the
`geopy` import / geolocator construction succeeding) is a Boolean.
-/

namespace GVA

/-- Python `str.strip()`: drop leading and trailing whitespace. -/
def pyStrip (s : String) : String :=
  ⟨((s.data.dropWhile Char.isWhitespace).reverse.dropWhile Char.isWhitespace).reverse⟩

/-- A record: an insertion-ordered dictionary of field names to string
values, as produced by `csv.DictReader`. -/
abbrev Record := List (String × String)

namespace Record

/-- Python `d.get(k)`: the first value bound to key `k`. -/
def get (r : Record) (k : String) : Option String :=
  (r.find? (fun p => p.1 == k)).map (fun p => p.2)

/-- Python `d.get(k, d0)`. -/
def getD (r : Record) (k d0 : String) : String := (get r k).getD d0

/-- Python `d[k] = v`: overwrite in place when the key exists, append
otherwise. -/
def set (r : Record) (k v : String) : Record :=
  if (get r k).isSome then r.map (fun p => if p.1 == k then (k, v) else p)
  else r ++ [(k, v)]

/-- Python `d.setdefault(k, v)`. -/
def setdefault (r : Record) (k v : String) : Record :=
  if (get r k).isSome then r else r ++ [(k, v)]

/-- The key sequence of a record. -/
def keys (r : Record) : List String := r.map Prod.fst

end Record

/-- A CSV file as the `csv` module sees it: the header row
(`reader.fieldnames`; `[]` models a headerless/empty file) and the data
rows, each a dictionary keyed by the header. -/
structure CsvFile where
  header : List String
  rows : List Record
  deriving DecidableEq

/-- Well-formedness of a parsed CSV file: a non-empty header of
pairwise-distinct column names, and every row keyed exactly by the
header — what `csv.DictReader` yields on a rectangular file. -/
def CsvFile.WF (f : CsvFile) : Prop :=
  f.header ≠ [] ∧ f.header.Nodup ∧ ∀ r ∈ f.rows, Record.keys r = f.header

/-- The loop body of `read_ids` (gva.py): add the stripped value of a
present, truthy `Incident ID` field to the accumulated set. -/
def read_ids_step (acc : Finset String) (row : Record) : Finset String :=
  match Record.get row "Incident ID" with
  | some v => if v ≠ "" then insert (pyStrip v) acc else acc
  | none => acc

/-- `read_ids` (gva.py): fold over the rows, collecting identifiers.
`none` models a file that cannot be opened: the exception handler
returns the accumulated — empty — set. -/
def read_ids (file : Option CsvFile) : Finset String :=
  match file with
  | none => ∅
  | some f => f.rows.foldl read_ids_step ∅

/-- The stripped identifier of a record, as the reconciler computes it
from the `Incident ID` field (defaulting to the empty string). -/
def rowId (r : Record) : String := pyStrip (Record.getD r "Incident ID" "")

/-- The filtering loop of `find_new_incidents` (gva.py): keep the rows
whose stripped identifier is truthy and absent from `existing_ids`,
adding empty `latitude` / `longitude` fields when missing. -/
def find_new_core (temp : CsvFile) (existing_ids : Finset String) : List Record :=
  temp.rows.filterMap (fun row =>
    let incident_id := pyStrip (Record.getD row "Incident ID" "")
    if incident_id ≠ "" ∧ incident_id ∉ existing_ids then
      some (Record.setdefault (Record.setdefault row "latitude" "") "longitude" "")
    else none)

/-- Outcome of one call of the external geocoding lookup. `error`
models an exception raised by the call. -/
inductive GeoResult where
  | found (lat lon : String)
  | notFound
  | error
  deriving DecidableEq

/-- One iteration of the geocoding loop body of `geocode_incidents`
(gva.py): build the address from the stripped city and state, consult
the lookup, and fill `latitude` / `longitude` with the result or with
empty strings on any failure. -/
def geocodeOne (geo : String → GeoResult) (incident : Record) : Record :=
  let city := pyStrip (Record.getD incident "City Or County" "")
  let state := pyStrip (Record.getD incident "State" "")
  if city ≠ "" ∧ state ≠ "" then
    match geo (city ++ ", " ++ state ++ ", USA") with
    | .found lat lon => Record.set (Record.set incident "latitude" lat) "longitude" lon
    | .notFound => Record.set (Record.set incident "latitude" "") "longitude" ""
    | .error => Record.set (Record.set incident "latitude" "") "longitude" ""
  else
    Record.set (Record.set incident "latitude" "") "longitude" ""

/-- `geocode_incidents` (gva.py).  `available = false` models the
`geopy` import failing or the geolocator constructor raising: the
whole batch is returned unenriched. -/
def geocode_incidents (available : Bool) (geo : String → GeoResult)
    (incidents : List Record) : List Record :=
  if incidents.isEmpty then []
  else if available then incidents.map (geocodeOne geo)
  else incidents

/-- `find_new_incidents` (gva.py).  `master = none` models a missing
master file (the `os.path.exists` check): an empty list is returned.
The new incidents are geocoded only when the list is non-empty. -/
def find_new_incidents (temp : CsvFile) (master : Option CsvFile)
    (available : Bool) (geo : String → GeoResult) : List Record :=
  match master with
  | none => []
  | some _ =>
    let new_incidents := find_new_core temp (read_ids master)
    if new_incidents.isEmpty then new_incidents
    else geocode_incidents available geo new_incidents

/-- The row a `csv.DictWriter` with fieldnames `header` emits for
record `r`: one cell per header column, missing fields becoming empty
cells. -/
def projectRow (header : List String) (r : Record) : Record :=
  header.map (fun k => (k, Record.getD r k ""))

/-- `csv.DictWriter.writerow` with the default `extrasaction`:
raises (`none`) when the record has a key outside the header,
otherwise writes the projection of the record onto the header. -/
def writeRow (header : List String) (r : Record) : Option Record :=
  if ∀ k ∈ Record.keys r, k ∈ header then some (projectRow header r) else none

/-- Writing a sequence of rows; the first failing row aborts. -/
def writeRows (header : List String) : List Record → Option (List Record)
  | [] => some []
  | r :: rs =>
    match writeRow header r, writeRows header rs with
    | some w, some ws => some (w :: ws)
    | _, _ => none

/-- `update_master_file` (gva.py).  `some result` models returning
`True` with `result` the master file afterwards; `none` models
returning `False`.  An empty new-incidents list is a no-op success
that never touches the file; otherwise the file is reread and fully
rewritten: header, then the new incidents in order, then the existing
rows in order. -/
def update_master_file (new_incidents : List Record) (master : Option CsvFile) :
    Option (Option CsvFile) :=
  if new_incidents.isEmpty then some master
  else
    match master with
    | none => none
    | some f =>
      if f.header.isEmpty then none
      else
        (writeRows f.header (new_incidents ++ f.rows)).map
          (fun rows => some ⟨f.header, rows⟩)

/-- The run-scoped external state `run_automation` touches: the
download result, the master file, and the geocoding capability. -/
structure RunEnv where
  fetch : Option CsvFile
  master : Option CsvFile
  geoAvailable : Bool
  geo : String → GeoResult

/-- `run_automation` (gva.py) at the level of its success Boolean:
fail when the download fails, otherwise reconcile and merge; the
cleanup and the final count never change the result. -/
def run_automation (env : RunEnv) : Bool :=
  match env.fetch with
  | none => false
  | some temp =>
    let new_incidents := find_new_incidents temp env.master env.geoAvailable env.geo
    (update_master_file new_incidents env.master).isSome

/-- The identifier sequence of a master file, one entry per row. -/
def masterIds (f : CsvFile) : List String := f.rows.map rowId

/-- Failure of the geocoding lookup for one record: the city or state
text is missing, or the lookup returns no result or raises. -/
def geocodeFails (geo : String → GeoResult) (r : Record) : Prop :=
  let city := pyStrip (Record.getD r "City Or County" "")
  let state := pyStrip (Record.getD r "State" "")
  city = "" ∨ state = "" ∨
    geo (city ++ ", " ++ state ++ ", USA") = .notFound ∨
    geo (city ++ ", " ++ state ++ ", USA") = .error

/-! ### Basic record lemmas -/

theorem pyStrip_empty : pyStrip "" = "" := rfl

namespace Record

theorem get_cons_self {k v : String} {t : Record} : get ((k, v) :: t) k = some v := by
  simp [get, List.find?]

theorem get_cons_ne {j k v : String} {t : Record} (h : j ≠ k) :
    get ((k, v) :: t) j = get t j := by
  have hb : (k == j) = false := by simp [Ne.symm h]
  simp [get, List.find?, hb]

theorem isSome_get_iff_mem_keys {r : Record} {k : String} :
    (get r k).isSome ↔ k ∈ keys r := by
  simp only [get, Option.isSome_map', List.find?_isSome, keys, List.mem_map]
  constructor
  · rintro ⟨p, hp, hpk⟩
    exact ⟨p, hp, (beq_iff_eq.mp hpk)⟩
  · rintro ⟨p, hp, hpk⟩
    exact ⟨p, hp, beq_iff_eq.mpr hpk⟩

theorem get_eq_none_of_not_mem_keys {r : Record} {k : String} (h : k ∉ keys r) :
    get r k = none := by
  by_contra hne
  exact h (isSome_get_iff_mem_keys.mp (Option.isSome_iff_ne_none.mpr hne))

theorem get_replace_ne (r : Record) {j k : String} (v : String) (h : j ≠ k) :
    get (r.map (fun p => if p.1 == k then (k, v) else p)) j = get r j := by
  induction r with
  | nil => rfl
  | cons p t ih =>
    obtain ⟨a, b⟩ := p
    by_cases hak : a = k
    · subst hak
      simp only [List.map_cons, beq_self_eq_true, if_true]
      rw [get_cons_ne h, get_cons_ne h, ih]
    · have hb : (a == k) = false := by simp [hak]
      simp only [List.map_cons, hb, Bool.false_eq_true, if_false]
      by_cases hj : j = a
      · subst hj
        rw [get_cons_self, get_cons_self]
      · rw [get_cons_ne hj, get_cons_ne hj, ih]

theorem get_append_single_ne (r : Record) {j k : String} (v : String) (h : j ≠ k) :
    get (r ++ [(k, v)]) j = get r j := by
  induction r with
  | nil =>
    simp only [List.nil_append]
    exact get_cons_ne h
  | cons p t ih =>
    obtain ⟨a, b⟩ := p
    rw [List.cons_append]
    by_cases hj : j = a
    · subst hj
      rw [get_cons_self, get_cons_self]
    · rw [get_cons_ne hj, get_cons_ne hj, ih]

theorem get_set_ne {r : Record} {j k v : String} (h : j ≠ k) :
    get (set r k v) j = get r j := by
  unfold set
  split
  · exact get_replace_ne r v h
  · exact get_append_single_ne r v h

theorem get_setdefault_ne {r : Record} {j k v : String} (h : j ≠ k) :
    get (setdefault r k v) j = get r j := by
  unfold setdefault
  split
  · rfl
  · exact get_append_single_ne r v h

theorem keys_set_of_isSome {r : Record} {k v : String} (h : (get r k).isSome) :
    keys (set r k v) = keys r := by
  unfold set
  rw [if_pos h]
  unfold keys
  rw [List.map_map]
  refine List.map_congr_left ?_
  intro p _
  by_cases hp : p.1 = k
  · simp [hp]
  · simp [hp]

theorem mem_keys_setdefault_self {r : Record} {k v : String} :
    k ∈ keys (setdefault r k v) := by
  unfold setdefault
  split
  · exact isSome_get_iff_mem_keys.mp (by assumption)
  · unfold keys
    simp

theorem mem_keys_setdefault_mono {r : Record} {j k v : String} (h : j ∈ keys r) :
    j ∈ keys (setdefault r k v) := by
  unfold setdefault
  split
  · exact h
  · unfold keys at h ⊢
    simp only [List.map_append, List.mem_append]
    exact Or.inl h

end Record

/-! ### Identifier preservation through the record transformations -/

theorem rowId_setdefault {r : Record} {k v : String} (h : k ≠ "Incident ID") :
    rowId (Record.setdefault r k v) = rowId r := by
  unfold rowId Record.getD
  rw [Record.get_setdefault_ne (Ne.symm h)]

theorem rowId_set {r : Record} {k v : String} (h : k ≠ "Incident ID") :
    rowId (Record.set r k v) = rowId r := by
  unfold rowId Record.getD
  rw [Record.get_set_ne (Ne.symm h)]

theorem rowId_geocodeOne {geo : String → GeoResult} {r : Record} :
    rowId (geocodeOne geo r) = rowId r := by
  have hlat : "latitude" ≠ "Incident ID" := by decide
  have hlon : "longitude" ≠ "Incident ID" := by decide
  simp only [geocodeOne]
  split
  · split <;> rw [rowId_set hlon, rowId_set hlat]
  · rw [rowId_set hlon, rowId_set hlat]

/-- The record a snapshot row becomes before geocoding. -/
def withCoordDefaults (row : Record) : Record :=
  Record.setdefault (Record.setdefault row "latitude" "") "longitude" ""

theorem rowId_withCoordDefaults {row : Record} :
    rowId (withCoordDefaults row) = rowId row := by
  unfold withCoordDefaults
  rw [rowId_setdefault (by decide), rowId_setdefault (by decide)]

/-! ### Structure of the geocoding pass -/

theorem geocode_incidents_false {geo : String → GeoResult} {incidents : List Record} :
    geocode_incidents false geo incidents = incidents := by
  cases incidents <;> rfl

theorem geocode_incidents_true_eq_map {geo : String → GeoResult} {incidents : List Record} :
    geocode_incidents true geo incidents = incidents.map (geocodeOne geo) := by
  cases incidents <;> rfl

theorem keys_set_set {r : Record} {a b : String}
    (hlat : "latitude" ∈ Record.keys r) (hlon : "longitude" ∈ Record.keys r) :
    Record.keys (Record.set (Record.set r "latitude" a) "longitude" b) = Record.keys r := by
  have h1 : (Record.get r "latitude").isSome := Record.isSome_get_iff_mem_keys.mpr hlat
  have h2 : (Record.get (Record.set r "latitude" a) "longitude").isSome := by
    rw [Record.get_set_ne (by decide : "longitude" ≠ "latitude")]
    exact Record.isSome_get_iff_mem_keys.mpr hlon
  rw [Record.keys_set_of_isSome h2, Record.keys_set_of_isSome h1]

theorem keys_geocodeOne {geo : String → GeoResult} {r : Record}
    (hlat : "latitude" ∈ Record.keys r) (hlon : "longitude" ∈ Record.keys r) :
    Record.keys (geocodeOne geo r) = Record.keys r := by
  simp only [geocodeOne]
  split
  · split <;> exact keys_set_set hlat hlon
  · exact keys_set_set hlat hlon

/-! ### Structure of the reconciler -/

theorem find_new_core_eq (temp : CsvFile) (ids : Finset String) :
    find_new_core temp ids = temp.rows.filterMap (fun row =>
      if rowId row ≠ "" ∧ rowId row ∉ ids then some (withCoordDefaults row) else none) := rfl

theorem mem_find_new_core {temp : CsvFile} {ids : Finset String} {r : Record} :
    r ∈ find_new_core temp ids ↔
      ∃ row ∈ temp.rows, rowId row ≠ "" ∧ rowId row ∉ ids ∧ r = withCoordDefaults row := by
  rw [find_new_core_eq]
  simp only [List.mem_filterMap]
  constructor
  · rintro ⟨row, hrow, hsome⟩
    by_cases hc : rowId row ≠ "" ∧ rowId row ∉ ids
    · rw [if_pos hc] at hsome
      exact ⟨row, hrow, hc.1, hc.2, (Option.some.inj hsome).symm⟩
    · rw [if_neg hc] at hsome
      exact absurd hsome (by simp)
  · rintro ⟨row, hrow, h1, h2, rfl⟩
    exact ⟨row, hrow, by rw [if_pos ⟨h1, h2⟩]⟩

theorem mem_keys_withCoordDefaults (row : Record) :
    "latitude" ∈ Record.keys (withCoordDefaults row) ∧
      "longitude" ∈ Record.keys (withCoordDefaults row) := by
  constructor
  · exact Record.mem_keys_setdefault_mono Record.mem_keys_setdefault_self
  · exact Record.mem_keys_setdefault_self

theorem find_new_incidents_none {temp : CsvFile} {av : Bool} {geo : String → GeoResult} :
    find_new_incidents temp none av geo = [] := rfl

theorem find_new_incidents_false {temp f : CsvFile} {geo : String → GeoResult} :
    find_new_incidents temp (some f) false geo = find_new_core temp (read_ids (some f)) := by
  simp only [find_new_incidents, geocode_incidents_false]
  split <;> rfl

theorem find_new_incidents_true {temp f : CsvFile} {geo : String → GeoResult} :
    find_new_incidents temp (some f) true geo
      = (find_new_core temp (read_ids (some f))).map (geocodeOne geo) := by
  simp only [find_new_incidents, geocode_incidents_true_eq_map]
  split
  · next hemp =>
    rw [List.isEmpty_iff.mp hemp]
    rfl
  · rfl

theorem map_rowId_filterMap {ids : Finset String} (rows : List Record) :
    ((rows.filterMap (fun row =>
        if rowId row ≠ "" ∧ rowId row ∉ ids then some (withCoordDefaults row) else none)).map rowId)
      = (rows.map rowId).filter (fun s => decide (s ≠ "" ∧ s ∉ ids)) := by
  induction rows with
  | nil => rfl
  | cons row t ih =>
    rw [List.filterMap_cons, List.map_cons, List.filter_cons]
    by_cases hc : rowId row ≠ "" ∧ rowId row ∉ ids
    · rw [if_pos hc]
      have hd : decide (rowId row ≠ "" ∧ rowId row ∉ ids) = true := by simpa using hc
      simp [rowId_withCoordDefaults, ih, hd]
    · rw [if_neg hc]
      have hd : decide (rowId row ≠ "" ∧ rowId row ∉ ids) = false := by simpa using hc
      simp [ih, hd]

/-! ### Characterisation of `read_ids` -/

theorem mem_read_ids_step {acc : Finset String} {row : Record} {s : String} :
    s ∈ read_ids_step acc row ↔
      s ∈ acc ∨ ∃ v, Record.get row "Incident ID" = some v ∧ v ≠ "" ∧ pyStrip v = s := by
  unfold read_ids_step
  cases hv : Record.get row "Incident ID" with
  | none => simp
  | some v =>
    dsimp only
    by_cases hne : v ≠ ""
    · rw [if_pos hne]
      simp only [Finset.mem_insert]
      constructor
      · rintro (rfl | h)
        · exact Or.inr ⟨v, rfl, hne, rfl⟩
        · exact Or.inl h
      · rintro (h | ⟨w, hw, hwne, rfl⟩)
        · exact Or.inr h
        · exact Or.inl (by rw [Option.some.inj hw])
    · rw [if_neg hne]
      push_neg at hne
      subst hne
      constructor
      · exact fun h => Or.inl h
      · rintro (h | ⟨w, hw, hwne, rfl⟩)
        · exact h
        · exact absurd (Option.some.inj hw).symm hwne

theorem mem_foldl_read_ids_step (rows : List Record) (acc : Finset String) (s : String) :
    s ∈ rows.foldl read_ids_step acc ↔
      s ∈ acc ∨ ∃ row ∈ rows, ∃ v, Record.get row "Incident ID" = some v ∧ v ≠ "" ∧ pyStrip v = s := by
  induction rows generalizing acc with
  | nil => simp
  | cons row t ih =>
    rw [List.foldl_cons, ih, mem_read_ids_step]
    constructor
    · rintro (((h | h) | ⟨r, hr, hv⟩))
      · exact Or.inl h
      · exact Or.inr ⟨row, by simp, h⟩
      · exact Or.inr ⟨r, by simp [hr], hv⟩
    · rintro (h | ⟨r, hr, hv⟩)
      · exact Or.inl (Or.inl h)
      · rcases List.mem_cons.mp hr with rfl | hrt
        · exact Or.inl (Or.inr hv)
        · exact Or.inr ⟨r, hrt, hv⟩

theorem mem_read_ids {f : CsvFile} {s : String} :
    s ∈ read_ids (some f) ↔
      ∃ row ∈ f.rows, ∃ v, Record.get row "Incident ID" = some v ∧ v ≠ "" ∧ pyStrip v = s := by
  unfold read_ids
  rw [mem_foldl_read_ids_step]
  simp

/-! ### Structure of the writer -/

theorem writeRow_isSome {header : List String} {r : Record} :
    (writeRow header r).isSome ↔ ∀ k ∈ Record.keys r, k ∈ header := by
  unfold writeRow
  by_cases h : ∀ k ∈ Record.keys r, k ∈ header
  · rw [if_pos h]
    simpa using h
  · rw [if_neg h]
    simpa using h

theorem writeRows_eq_map {header : List String} :
    ∀ rs : List Record, (∀ r ∈ rs, ∀ k ∈ Record.keys r, k ∈ header) →
      writeRows header rs = some (rs.map (projectRow header))
  | [], _ => rfl
  | r :: t, h => by
    have hr : writeRow header r = some (projectRow header r) := by
      unfold writeRow
      rw [if_pos (h r (by simp))]
    have ht := writeRows_eq_map t (fun x hx => h x (by simp [hx]))
    simp only [writeRows, hr, ht, List.map_cons]

theorem writeRows_some {header : List String} :
    ∀ {rs ws : List Record}, writeRows header rs = some ws →
      ws = rs.map (projectRow header) ∧ ∀ r ∈ rs, ∀ k ∈ Record.keys r, k ∈ header := by
  intro rs
  induction rs with
  | nil =>
    intro ws h
    refine ⟨(Option.some.inj h).symm, by simp⟩
  | cons r t ih =>
    intro ws h
    unfold writeRows at h
    cases hw : writeRow header r with
    | none =>
      rw [hw] at h
      exact absurd h (by simp)
    | some w =>
      rw [hw] at h
      cases hts : writeRows header t with
      | none =>
        rw [hts] at h
        exact absurd h (by simp)
      | some ts =>
        rw [hts] at h
        obtain ⟨hts1, hts2⟩ := ih hts
        have hkeys : ∀ k ∈ Record.keys r, k ∈ header := by
          have hiff := @writeRow_isSome header r
          rw [hw] at hiff
          exact hiff.mp (by simp)
        have hwp : w = projectRow header r := by
          unfold writeRow at hw
          rw [if_pos hkeys] at hw
          exact (Option.some.inj hw).symm
        refine ⟨?_, ?_⟩
        · rw [← Option.some.inj h]
          simp [hwp, hts1]
        · intro x hx
          rcases List.mem_cons.mp hx with rfl | hxt
          · exact hkeys
          · exact hts2 x hxt

theorem writeRows_isSome_cons {header : List String} {r : Record} {rs : List Record} :
    (writeRows header (r :: rs)).isSome
      = ((writeRow header r).isSome && (writeRows header rs).isSome) := by
  cases hw : writeRow header r <;> cases ht : writeRows header rs <;>
    simp [writeRows, hw, ht]

theorem writeRows_isSome_map_append {header : List String} {g : Record → Record}
    {tail : List Record} :
    ∀ N : List Record, (∀ r ∈ N, Record.keys (g r) = Record.keys r) →
      (writeRows header (N.map g ++ tail)).isSome = (writeRows header (N ++ tail)).isSome
  | [], _ => rfl
  | r :: t, h => by
    simp only [List.map_cons, List.cons_append, writeRows_isSome_cons]
    rw [writeRows_isSome_map_append t (fun x hx => h x (by simp [hx]))]
    have h1 := @writeRow_isSome header (g r)
    have h2 := @writeRow_isSome header r
    rw [h r (by simp)] at h1
    rw [Bool.eq_iff_iff.mpr (h1.trans h2.symm)]

/-! ### Projection round-trip -/

theorem projectRow_keys_self :
    ∀ r : Record, (Record.keys r).Nodup → projectRow (Record.keys r) r = r := by
  intro r
  induction r with
  | nil => intro _; rfl
  | cons p t ih =>
    intro hnd
    obtain ⟨a, b⟩ := p
    simp only [Record.keys, List.map_cons] at hnd
    obtain ⟨ha, hnd2⟩ := List.nodup_cons.mp hnd
    show projectRow (a :: Record.keys t) ((a, b) :: t) = (a, b) :: t
    unfold projectRow
    simp only [List.map_cons]
    have hhead : Record.getD ((a, b) :: t) a "" = b := by
      unfold Record.getD
      rw [Record.get_cons_self]
      rfl
    rw [hhead]
    have hcongr : ∀ k ∈ Record.keys t,
        (k, Record.getD ((a, b) :: t) k "") = (k, Record.getD t k "") := by
      intro k hk
      have hka : k ≠ a := fun hh => ha (hh ▸ hk)
      unfold Record.getD
      rw [Record.get_cons_ne hka]
    rw [List.map_congr_left hcongr]
    exact congrArg _ (ih hnd2)

theorem map_projectRow_self {f : CsvFile} (hwf : f.WF) :
    f.rows.map (projectRow f.header) = f.rows := by
  have h : ∀ r ∈ f.rows, projectRow f.header r = id r := by
    intro r hr
    have hk := hwf.2.2 r hr
    rw [← hk]
    exact projectRow_keys_self r (by rw [hk]; exact hwf.2.1)
  rw [List.map_congr_left h, List.map_id]

theorem get_projectRow {header : List String} {r : Record} {k : String} :
    Record.get (projectRow header r) k
      = if k ∈ header then some (Record.getD r k "") else none := by
  induction header with
  | nil => simp [projectRow, Record.get]
  | cons a hs ih =>
    unfold projectRow at ih ⊢
    simp only [List.map_cons]
    by_cases hk : k = a
    · subst hk
      rw [Record.get_cons_self, if_pos (by simp)]
    · rw [Record.get_cons_ne hk, ih]
      by_cases hmem : k ∈ hs
      · rw [if_pos hmem, if_pos (by simp [hmem])]
      · rw [if_neg hmem, if_neg (by simp [hk, hmem])]

theorem rowId_projectRow {header : List String} {r : Record}
    (h : ∀ k ∈ Record.keys r, k ∈ header) :
    rowId (projectRow header r) = rowId r := by
  unfold rowId Record.getD
  rw [get_projectRow]
  by_cases hm : "Incident ID" ∈ header
  · rw [if_pos hm]
    rfl
  · rw [if_neg hm]
    have hnone : Record.get r "Incident ID" = none :=
      Record.get_eq_none_of_not_mem_keys (fun hmem => hm (h _ hmem))
    rw [hnone]

/-! ### Structure of the merge -/

theorem update_master_file_nil {master : Option CsvFile} :
    update_master_file [] master = some master := rfl

theorem update_master_file_eq {f : CsvFile} {new : List Record}
    (hne : new ≠ []) (hwf : f.WF)
    (hkeys : ∀ r ∈ new, ∀ k ∈ Record.keys r, k ∈ f.header) :
    update_master_file new (some f)
      = some (some ⟨f.header, new.map (projectRow f.header) ++ f.rows⟩) := by
  have hall : ∀ r ∈ new ++ f.rows, ∀ k ∈ Record.keys r, k ∈ f.header := by
    intro r hr
    rcases List.mem_append.mp hr with h | h
    · exact hkeys r h
    · intro k hk
      rw [hwf.2.2 r h] at hk
      exact hk
  unfold update_master_file
  rw [if_neg (by simp [hne])]
  dsimp only
  rw [if_neg (by simp [hwf.1]), writeRows_eq_map (new ++ f.rows) hall]
  simp only [Option.map_some', Option.some.injEq, CsvFile.mk.injEq, true_and]
  rw [List.map_append, map_projectRow_self hwf]

theorem update_master_file_some {f g : CsvFile} {new : List Record}
    (hne : new ≠ []) (h : update_master_file new (some f) = some (some g)) :
    g = ⟨f.header, (new ++ f.rows).map (projectRow f.header)⟩ ∧
      (∀ r ∈ new ++ f.rows, ∀ k ∈ Record.keys r, k ∈ f.header) ∧
      f.header ≠ [] := by
  unfold update_master_file at h
  rw [if_neg (by simp [hne])] at h
  dsimp only at h
  by_cases hh : f.header.isEmpty
  · rw [if_pos hh] at h
    exact absurd h (by simp)
  · rw [if_neg hh] at h
    cases hw : writeRows f.header (new ++ f.rows) with
    | none =>
      rw [hw] at h
      exact absurd h (by simp)
    | some ws =>
      rw [hw] at h
      obtain ⟨hws, hkeys⟩ := writeRows_some hw
      have hg : g = ⟨f.header, ws⟩ := by
        have := Option.some.inj (Option.some.inj (by simpa using h.symm))
        exact this
      refine ⟨?_, hkeys, by simpa using hh⟩
      rw [hg, hws]

theorem masterIds_update {f g : CsvFile} {new : List Record}
    (hupd : update_master_file new (some f) = some (some g)) :
    masterIds g = new.map rowId ++ masterIds f := by
  by_cases hne : new = []
  · subst hne
    rw [update_master_file_nil] at hupd
    rw [← Option.some.inj (Option.some.inj hupd)]
    simp
  · obtain ⟨hg, hkeys, _⟩ := update_master_file_some hne hupd
    subst hg
    unfold masterIds
    dsimp only
    rw [List.map_map]
    have hcongr : ∀ r ∈ new ++ f.rows, (rowId ∘ projectRow f.header) r = rowId r := by
      intro r hr
      exact rowId_projectRow (hkeys r hr)
    rw [List.map_congr_left hcongr, List.map_append]

/-! ### Reading back an assigned field -/

theorem Record.get_replace_self (r : Record) (k v : String)
    (hs : (Record.get r k).isSome) :
    Record.get (r.map (fun p => if p.1 == k then (k, v) else p)) k = some v := by
  induction r with
  | nil => simp [Record.get] at hs
  | cons p t ih =>
    obtain ⟨a, b⟩ := p
    by_cases hak : a = k
    · subst hak
      simp only [List.map_cons, beq_self_eq_true, if_true]
      exact Record.get_cons_self
    · have hb : (a == k) = false := by simp [hak]
      simp only [List.map_cons, hb, Bool.false_eq_true, if_false]
      rw [Record.get_cons_ne (Ne.symm hak)]
      apply ih
      rw [Record.get_cons_ne (Ne.symm hak)] at hs
      exact hs

theorem Record.get_append_single_self (r : Record) (k v : String)
    (hn : Record.get r k = none) :
    Record.get (r ++ [(k, v)]) k = some v := by
  induction r with
  | nil =>
    rw [List.nil_append]
    exact Record.get_cons_self
  | cons p t ih =>
    obtain ⟨a, b⟩ := p
    by_cases hak : k = a
    · subst hak
      rw [Record.get_cons_self] at hn
      exact absurd hn (by simp)
    · rw [List.cons_append, Record.get_cons_ne hak]
      rw [Record.get_cons_ne hak] at hn
      exact ih hn

theorem Record.get_set_self {r : Record} {k v : String} :
    Record.get (Record.set r k v) k = some v := by
  unfold Record.set
  split
  · next hs => exact Record.get_replace_self r k v hs
  · next hs => exact Record.get_append_single_self r k v (Option.not_isSome_iff_eq_none.mp hs)

/-! ### Failure behaviour of one geocoding step -/

theorem geocodeOne_of_fails {geo : String → GeoResult} {r : Record}
    (h : geocodeFails geo r) :
    geocodeOne geo r = Record.set (Record.set r "latitude" "") "longitude" "" := by
  simp only [geocodeFails] at h
  simp only [geocodeOne]
  split
  · next hc =>
    rcases h with h | h | h | h
    · exact absurd h hc.1
    · exact absurd h hc.2
    · rw [h]
    · rw [h]
  · rfl

theorem get_latlon_of_fails {geo : String → GeoResult} {r : Record}
    (h : geocodeFails geo r) :
    Record.get (geocodeOne geo r) "latitude" = some "" ∧
      Record.get (geocodeOne geo r) "longitude" = some "" := by
  rw [geocodeOne_of_fails h]
  constructor
  · rw [Record.get_set_ne (by decide : "latitude" ≠ "longitude")]
    exact Record.get_set_self
  · exact Record.get_set_self

/-! ### Lifting key-preserving maps through the merge -/

theorem update_isSome_map {f : CsvFile} {g : Record → Record} {N : List Record}
    (h : ∀ r ∈ N, Record.keys (g r) = Record.keys r) :
    (update_master_file (N.map g) (some f)).isSome
      = (update_master_file N (some f)).isSome := by
  by_cases hN : N = []
  · subst hN
    rfl
  · have h1 : (N.map g).isEmpty = false := by simp [hN]
    have h2 : N.isEmpty = false := by simp [hN]
    unfold update_master_file
    rw [h1, h2]
    simp only [Bool.false_eq_true, if_false]
    by_cases hh : f.header.isEmpty
    · rw [if_pos hh, if_pos hh]
    · rw [if_neg hh, if_neg hh, Option.isSome_map', Option.isSome_map',
        writeRows_isSome_map_append N h]

/-! ### Identifiers of the records judged new -/

theorem rowId_of_mem_find_new {temp f : CsvFile} {av : Bool} {geo : String → GeoResult}
    {r : Record} (h : r ∈ find_new_incidents temp (some f) av geo) :
    rowId r ≠ "" ∧ rowId r ∉ read_ids (some f) := by
  cases av with
  | false =>
    rw [find_new_incidents_false] at h
    obtain ⟨row, _, h1, h2, rfl⟩ := mem_find_new_core.mp h
    rw [rowId_withCoordDefaults]
    exact ⟨h1, h2⟩
  | true =>
    rw [find_new_incidents_true] at h
    obtain ⟨r0, hr0, rfl⟩ := List.mem_map.mp h
    obtain ⟨row, _, h1, h2, rfl⟩ := mem_find_new_core.mp hr0
    rw [rowId_geocodeOne, rowId_withCoordDefaults]
    exact ⟨h1, h2⟩

theorem latlon_keys_of_mem_find_new_core {temp : CsvFile} {ids : Finset String}
    {r : Record} (h : r ∈ find_new_core temp ids) :
    "latitude" ∈ Record.keys r ∧ "longitude" ∈ Record.keys r := by
  obtain ⟨row, _, _, _, rfl⟩ := mem_find_new_core.mp h
  exact mem_keys_withCoordDefaults row

/-! ### Concrete instances

The scenario from the design document: a master store holding records
`A` and `B`, and a snapshot `[B, C, C, blank]`. -/

def exHeader : List String := ["Incident ID", "latitude", "longitude"]

def exRowA : Record := [("Incident ID", "A"), ("latitude", ""), ("longitude", "")]

def exRowB : Record := [("Incident ID", "B"), ("latitude", ""), ("longitude", "")]

def exRowC : Record := [("Incident ID", "C"), ("latitude", ""), ("longitude", "")]

def exMaster : CsvFile := ⟨exHeader, [exRowA, exRowB]⟩

def exSnapB : Record := [("Incident ID", "B")]

def exSnapC : Record := [("Incident ID", "C")]

def exSnapBlank : Record := [("Incident ID", "")]

def exSnapshot : CsvFile := ⟨["Incident ID"], [exSnapB, exSnapC, exSnapC, exSnapBlank]⟩

def exSnapshotC : CsvFile := ⟨["Incident ID"], [exSnapC]⟩

def exSnapshotB : CsvFile := ⟨["Incident ID"], [exSnapB]⟩

def exGeo : String → GeoResult := fun _ => GeoResult.notFound

def exMergedC : CsvFile := ⟨exHeader, [exRowC, exRowA, exRowB]⟩

def exMergedCC : CsvFile := ⟨exHeader, [exRowC, exRowC, exRowA, exRowB]⟩

def exBadRecord : Record := [("Incident ID", "X"), ("Notes", "n")]

def exNoStateRec : Record :=
  [("Incident ID", "9"), ("City Or County", "Springfield"), ("latitude", ""), ("longitude", "")]

/-! ### The claims -/

/-- C1, counterexample: on the very scenario of the design document
(master `{A, B}`, snapshot `[B, C, C, blank]`) the reconciler emits the
identifier `C` twice — the second occurrence of a duplicated fresh
identifier is **not** dropped, so an identifier can appear twice in the
new-records list. -/
theorem find_new_duplicate_occurrences_cex :
    (find_new_incidents exSnapshot (some exMaster) false exGeo).map rowId = ["C", "C"] ∧
      ¬ ((find_new_incidents exSnapshot (some exMaster) false exGeo).map rowId).Nodup := by
  decide

/-- C1, amended: the reconciler keeps, in snapshot order, **every**
occurrence of a record whose stripped identifier is non-empty and
absent from the identifier set of the master — duplicated fresh identifiers
are all kept (deduplication happens only against the master set, not
within the snapshot). -/
theorem find_new_incidents_id_multiset (temp f : CsvFile) (av : Bool)
    (geo : String → GeoResult) :
    (find_new_incidents temp (some f) av geo).map rowId
      = (temp.rows.map rowId).filter
          (fun s => decide (s ≠ "" ∧ s ∉ read_ids (some f))) := by
  cases av with
  | false =>
    rw [find_new_incidents_false, find_new_core_eq]
    exact map_rowId_filterMap temp.rows
  | true =>
    rw [find_new_incidents_true, List.map_map]
    have hfun : (rowId ∘ geocodeOne geo) = rowId := funext (fun r => rowId_geocodeOne)
    rw [hfun, find_new_core_eq]
    exact map_rowId_filterMap temp.rows

/-- C2, counterexample: a master set with pairwise-distinct identifiers
(`A`, `B`) merged with a snapshot containing the fresh identifier `C`
twice yields a master set whose identifier list `[C, C, A, B]` is not
pairwise distinct. -/
theorem merge_duplicate_ids_cex :
    (masterIds exMaster).Nodup ∧
      update_master_file (find_new_incidents exSnapshot (some exMaster) false exGeo)
          (some exMaster) = some (some exMergedCC) ∧
      ¬ (masterIds exMergedCC).Nodup := by
  decide

/-- C2, amended: if the identifiers of the master are pairwise distinct
**and the identifiers of the records judged new are pairwise distinct**
(the reconciler does not deduplicate within a snapshot), then after the
reconcile-then-merge the master again has pairwise-distinct
identifiers, and in both stores the number of distinct identifiers
equals the number of records. -/
theorem merge_preserves_distinct_ids {temp f g : CsvFile} {av : Bool}
    {geo : String → GeoResult}
    (hbefore : (masterIds f).Nodup)
    (hsnap : ((find_new_incidents temp (some f) av geo).map rowId).Nodup)
    (hupd : update_master_file (find_new_incidents temp (some f) av geo) (some f)
              = some (some g)) :
    (masterIds f).toFinset.card = f.rows.length ∧
      (masterIds g).Nodup ∧ (masterIds g).toFinset.card = g.rows.length := by
  have hafter : (masterIds g).Nodup := by
    rw [masterIds_update hupd]
    refine List.Nodup.append hsnap hbefore ?_
    intro s hsN hsM
    obtain ⟨r, hr, rfl⟩ := List.mem_map.mp hsN
    obtain ⟨hne, hnotin⟩ := rowId_of_mem_find_new hr
    obtain ⟨row, hrow, hsrow⟩ := List.mem_map.mp hsM
    apply hnotin
    rw [← hsrow] at hne ⊢
    cases hgv : Record.get row "Incident ID" with
    | none =>
      exact absurd (by simp [rowId, Record.getD, hgv, pyStrip_empty]) hne
    | some v =>
      have hv : v ≠ "" := by
        intro hveq
        subst hveq
        exact hne (by simp [rowId, Record.getD, hgv, pyStrip_empty])
      exact mem_read_ids.mpr ⟨row, hrow, v, hgv, hv, by simp [rowId, Record.getD, hgv]⟩
  refine ⟨?_, hafter, ?_⟩
  · rw [List.toFinset_card_of_nodup hbefore]
    simp [masterIds]
  · rw [List.toFinset_card_of_nodup hafter]
    simp [masterIds]

/-- Witness for the amended C2: snapshot `[C]` against master `{A, B}`
merges to `[C, A, B]`, which keeps its identifiers pairwise distinct. -/
theorem merge_preserves_distinct_ids_witness :
    (masterIds exMaster).toFinset.card = exMaster.rows.length ∧
      (masterIds exMergedC).Nodup ∧
      (masterIds exMergedC).toFinset.card = exMergedC.rows.length :=
  @merge_preserves_distinct_ids exSnapshotC exMaster exMergedC false exGeo
    (by decide) (by decide) (by decide)

/-- C3: the claim says a missing master store makes the run fail
fatally before fetch/merge side effects.  The code disagrees: when the
master file is absent, `find_new_incidents` logs and returns the empty
list, `update_master_file` treats the empty list as a no-op success,
and `run_automation` returns `True` (exit code 0) — for every snapshot
and geocoder, and the fetch has already happened by then. -/
theorem run_succeeds_without_master (temp : CsvFile) (av : Bool)
    (geo : String → GeoResult) :
    run_automation ⟨some temp, none, av, geo⟩ = true ∧
      find_new_incidents temp none av geo = [] ∧
      update_master_file (find_new_incidents temp none av geo) none = some none :=
  ⟨rfl, rfl, rfl⟩

/-- C4, counterexample: a well-formed, readable master store with a
header, and a non-empty new-records list whose record carries a field
(`Notes`) outside the column set of the master: `csv.DictWriter` raises, so
`update_master_file` returns failure and does not write the claimed
merged store. -/
theorem merge_extra_field_fails_cex :
    exMaster.WF ∧ ([exBadRecord] : List Record) ≠ [] ∧
      update_master_file [exBadRecord] (some exMaster) = none :=
  ⟨⟨by decide, by decide, by decide⟩, by decide, by decide⟩

/-- C4, amended: for every non-empty new-records list **whose fields
all lie within the column set of the master** and every well-formed master
store, `update_master_file` writes the header, then the new records in
their given order (projected onto the original column set), then all
previously existing records unchanged and in their existing order. -/
theorem update_master_file_write_shape {f : CsvFile} {new : List Record}
    (hne : new ≠ []) (hwf : f.WF)
    (hkeys : ∀ r ∈ new, ∀ k ∈ Record.keys r, k ∈ f.header) :
    update_master_file new (some f)
      = some (some ⟨f.header, new.map (projectRow f.header) ++ f.rows⟩) :=
  update_master_file_eq hne hwf hkeys

/-- Witness for the amended C4: merging `[C]` into the master `{A, B}`
writes `[C, A, B]` under the original header. -/
theorem update_master_file_write_shape_witness :
    update_master_file [exRowC] (some exMaster)
      = some (some ⟨exMaster.header,
          ([exRowC] : List Record).map (projectRow exMaster.header) ++ exMaster.rows⟩) :=
  update_master_file_write_shape (by decide) ⟨by decide, by decide, by decide⟩ (by decide)

/-- C5: conservation — every successful merge produces a master store
with exactly the old record count plus the number of records judged
new; no record is lost and none is added beyond the new-records
list. -/
theorem update_master_file_conservation {f g : CsvFile} {new : List Record}
    (h : update_master_file new (some f) = some (some g)) :
    g.rows.length = f.rows.length + new.length := by
  by_cases hne : new = []
  · subst hne
    rw [update_master_file_nil] at h
    rw [← Option.some.inj (Option.some.inj h)]
    simp
  · obtain ⟨hg, _, _⟩ := update_master_file_some hne h
    subst hg
    simp only [List.length_map, List.length_append]
    omega

/-- Witness for C5: `3 = 2 + 1` on the concrete merge of `[C]` into
`{A, B}`. -/
theorem update_master_file_conservation_witness :
    exMergedC.rows.length = exMaster.rows.length + ([exRowC] : List Record).length :=
  @update_master_file_conservation exMaster exMergedC [exRowC] (by decide)

/-- C6: a snapshot whose non-empty identifiers are all already in the
identifier set of the master yields zero new records, and the subsequent
merge is an explicit successful no-op that leaves the store
unchanged. -/
theorem subset_snapshot_noop {temp f : CsvFile} {av : Bool} {geo : String → GeoResult}
    (h : ∀ row ∈ temp.rows, rowId row ≠ "" → rowId row ∈ read_ids (some f)) :
    find_new_incidents temp (some f) av geo = [] ∧
      update_master_file (find_new_incidents temp (some f) av geo) (some f)
        = some (some f) := by
  have hcore : find_new_core temp (read_ids (some f)) = [] := by
    rw [find_new_core_eq, List.filterMap_eq_nil_iff]
    intro row hrow
    rw [if_neg]
    rintro ⟨h1, h2⟩
    exact h2 (h row hrow h1)
  have hempty : find_new_incidents temp (some f) av geo = [] := by
    cases av with
    | false => rw [find_new_incidents_false, hcore]
    | true => rw [find_new_incidents_true, hcore]; rfl
  rw [hempty]
  exact ⟨rfl, rfl⟩

/-- Witness for C6: the snapshot `[B]` against master `{A, B}` is a
no-op. -/
theorem subset_snapshot_noop_witness :
    find_new_incidents exSnapshotB (some exMaster) false exGeo = [] ∧
      update_master_file (find_new_incidents exSnapshotB (some exMaster) false exGeo)
          (some exMaster) = some (some exMaster) :=
  @subset_snapshot_noop exSnapshotB exMaster false exGeo (by decide)

/-- C7: when the geocoding lookup fails for record `k` (missing
city/state text, no result, or a raised error), the batch still has all
its records; record `k` is kept with `latitude`/`longitude` set to the
empty string and every other field unchanged. -/
theorem geocode_failure_keeps_record (incidents : List Record)
    (geo : String → GeoResult) (k : Nat) (hk : k < incidents.length)
    (hfail : geocodeFails geo (incidents.getD k [])) :
    (geocode_incidents true geo incidents).length = incidents.length ∧
      (geocode_incidents true geo incidents).getD k []
        = Record.set (Record.set (incidents.getD k []) "latitude" "") "longitude" "" ∧
      (∀ fld, fld ≠ "latitude" → fld ≠ "longitude" →
        Record.get ((geocode_incidents true geo incidents).getD k []) fld
          = Record.get (incidents.getD k []) fld) ∧
      Record.get ((geocode_incidents true geo incidents).getD k []) "latitude" = some "" ∧
      Record.get ((geocode_incidents true geo incidents).getD k []) "longitude" = some "" := by
  have hmap : (geocode_incidents true geo incidents).getD k []
      = geocodeOne geo (incidents.getD k []) := by
    rw [geocode_incidents_true_eq_map, List.getD_eq_getElem?_getD, List.getD_eq_getElem?_getD,
      List.getElem?_map, List.getElem?_eq_getElem hk]
    rfl
  refine ⟨by rw [geocode_incidents_true_eq_map, List.length_map], ?_, ?_, ?_, ?_⟩
  · rw [hmap]
    exact geocodeOne_of_fails hfail
  · intro fld h1 h2
    rw [hmap, geocodeOne_of_fails hfail, Record.get_set_ne h2, Record.get_set_ne h1]
  · rw [hmap]
    exact (get_latlon_of_fails hfail).1
  · rw [hmap]
    exact (get_latlon_of_fails hfail).2

/-- Witness for C7: a record with no `State` field is kept, with empty
coordinates and its identifier intact. -/
theorem geocode_failure_keeps_record_witness :
    (geocode_incidents true exGeo [exNoStateRec]).getD 0 []
      = Record.set (Record.set exNoStateRec "latitude" "") "longitude" "" ∧
      Record.get ((geocode_incidents true exGeo [exNoStateRec]).getD 0 []) "Incident ID"
        = Record.get exNoStateRec "Incident ID" := by
  have h := geocode_failure_keeps_record [exNoStateRec] exGeo 0 (by decide)
    (Or.inr (Or.inl (by decide)))
  exact ⟨h.2.1, h.2.2.1 "Incident ID" (by decide) (by decide)⟩

/-- C8: if the geocoding capability cannot be initialised at all,
`geocode_incidents` returns the whole batch unchanged instead of
raising, and the outcome of the run is exactly what it would have been with
the capability available — in particular a run that would succeed still
succeeds. -/
theorem geocode_unavailable_batch_unchanged (geo : String → GeoResult)
    (incidents : List Record) (fetch master : Option CsvFile) :
    geocode_incidents false geo incidents = incidents ∧
      run_automation ⟨fetch, master, false, geo⟩
        = run_automation ⟨fetch, master, true, geo⟩ := by
  refine ⟨geocode_incidents_false, ?_⟩
  cases fetch with
  | none => rfl
  | some temp =>
    cases master with
    | none => rfl
    | some f =>
      show (update_master_file (find_new_incidents temp (some f) false geo) (some f)).isSome
          = (update_master_file (find_new_incidents temp (some f) true geo) (some f)).isSome
      rw [find_new_incidents_false, find_new_incidents_true]
      exact (update_isSome_map (fun r hr =>
        keys_geocodeOne (latlon_keys_of_mem_find_new_core hr).1
          (latlon_keys_of_mem_find_new_core hr).2)).symm

/-- C9: every record the reconciler outputs has a non-empty stripped
identifier — a snapshot record whose identifier is missing, empty or
whitespace-only never appears among the new records (and hence is never
merged, since the merge writes exactly the new-records list in front of
the old rows). -/
theorem blank_id_never_new (temp : CsvFile) (master : Option CsvFile) (av : Bool)
    (geo : String → GeoResult) (r : Record)
    (h : r ∈ find_new_incidents temp master av geo) : rowId r ≠ "" := by
  cases master with
  | none => exact absurd h (by simp [find_new_incidents_none])
  | some f => exact (rowId_of_mem_find_new h).1

/-- Witness for C9, at the record `C` judged new from the snapshot
`[C]`. -/
theorem blank_id_never_new_witness : rowId exRowC ≠ "" :=
  blank_id_never_new exSnapshotC (some exMaster) false exGeo exRowC (by decide)

/-- C10: `read_ids` is total — on a readable store it returns exactly
the stripped values of the present, truthy `Incident ID` fields; on an
unopenable file it returns the accumulated empty set, so a missing
master is indistinguishable from an empty one, and against that empty
set every snapshot record with a non-empty identifier is classified as
new by the filter of the reconciler. -/
theorem read_ids_total_characterisation :
    (∀ (f : CsvFile) (s : String), s ∈ read_ids (some f) ↔
        ∃ row ∈ f.rows, ∃ v, Record.get row "Incident ID" = some v ∧ v ≠ "" ∧ pyStrip v = s) ∧
      read_ids none = ∅ ∧
      (∀ (temp : CsvFile) (row : Record), row ∈ temp.rows → rowId row ≠ "" →
        withCoordDefaults row ∈ find_new_core temp (read_ids none)) := by
  refine ⟨fun f s => mem_read_ids, rfl, fun temp row hrow hid => ?_⟩
  exact mem_find_new_core.mpr ⟨row, hrow, hid, Finset.not_mem_empty _, rfl⟩

/-- Witness for C10: the snapshot record `C` is classified as new
against the empty identifier set, and membership in `read_ids` of the
concrete master matches the characterisation. -/
theorem read_ids_total_characterisation_witness :
    withCoordDefaults exSnapC ∈ find_new_core exSnapshotC (read_ids none) ∧
      ("B" ∈ read_ids (some exMaster) ↔ ∃ row ∈ exMaster.rows, ∃ v,
        Record.get row "Incident ID" = some v ∧ v ≠ "" ∧ pyStrip v = "B") :=
  ⟨read_ids_total_characterisation.2.2 exSnapshotC exSnapC (by decide) (by decide),
   read_ids_total_characterisation.1 exMaster "B"⟩

end GVA
